import Mathlib

/-!
Verification of the analytical core of the Digital Twin EVM dashboard
(`complete_dashboard_with_all_tabs.py`, with the scenario table also present in
`dashboard_callbacks.py`).

The embedding models:
* the temporal metrics engine `calculate_comprehensive_temporal_metrics`
  (response times, rework cycles, step performance),
* the module-level EVM scalar computations (SPI/CPI, failure rate,
  first-time-right rate, empty-guarded temporal aggregates),
* the scenario table built in `update_simulation_comparison`.

Timestamps (`inspectedAt`) are modelled as integer epoch seconds; the Python
code converts time deltas via `.total_seconds() / 3600`, which the embedding
mirrors as exact rational division by 3600.  Monetary amounts and rates are
modelled as exact rationals; `pandas.round(d)` is modelled as exact
round-half-to-even at `d` decimal places (numpy's documented rounding rule).
-/

inductive Status where
  | Pass : Status
  | Fail : Status
  | Offered : Status
deriving DecidableEq, Repr

/-- A row of the quality inspection table: columns `pk`, `stepId`,
`inspectedAt`, `status`.  `inspectedAt` is in epoch seconds. -/
structure InspectionEvent where
  pk : Nat
  stepId : Nat
  inspectedAt : Int
  status : Status
deriving DecidableEq, Repr

/-- One record of the `response_times` list built by
`calculate_comprehensive_temporal_metrics`. -/
structure ResponseTimeEvent where
  pk : Nat
  stepId : Nat
  failure_date : Int
  response_time_hours : ℚ
  response_time_days : ℚ
  next_status : Status
deriving DecidableEq, Repr

/-- One record of the `rework_cycles` list built by
`calculate_comprehensive_temporal_metrics`. -/
structure ReworkCycle where
  pk : Nat
  stepId : Nat
  failure_date : Int
  resolution_date : Int
  rework_time_hours : ℚ
  rework_time_days : ℚ
  intermediate_inspections : Nat
  total_attempts : Nat
deriving DecidableEq, Repr

/-- One row of the `step_performance` table (grouped by `stepId`). -/
structure StepPerformance where
  stepId : Nat
  Total_Inspections : Nat
  Passes : Nat
  Failures : Nat
  Pass_Rate : ℚ
  Failure_Rate : ℚ
deriving DecidableEq, Repr

/-- Comparison used by `sort_values('inspectedAt')`. -/
def eventTimeLe (a b : InspectionEvent) : Prop :=
  a.inspectedAt ≤ b.inspectedAt

instance : DecidableRel eventTimeLe :=
  fun a b => inferInstanceAs (Decidable (a.inspectedAt ≤ b.inspectedAt))

instance : IsTotal InspectionEvent eventTimeLe :=
  ⟨fun a b => le_total a.inspectedAt b.inspectedAt⟩

instance : IsTrans InspectionEvent eventTimeLe :=
  ⟨fun _ _ _ h h2 => le_trans h h2⟩

/-- `failed_inspections`: all `Fail` events sorted ascending by `inspectedAt`. -/
def failed_inspections (events : List InspectionEvent) : List InspectionEvent :=
  (events.filter (fun e => e.status == Status.Fail)).insertionSort eventTimeLe

/-- `subsequent`: same-`pk` events strictly after the failure, sorted ascending. -/
def subsequentEvents (events : List InspectionEvent) (failure : InspectionEvent) :
    List InspectionEvent :=
  (events.filter
      (fun e => e.pk == failure.pk && failure.inspectedAt < e.inspectedAt)).insertionSort
    eventTimeLe

/-- The record appended to `response_times` for one failure, when the
`subsequent` selection is non-empty; `none` otherwise. -/
def responseOf (events : List InspectionEvent) (failure : InspectionEvent) :
    Option ResponseTimeEvent :=
  (subsequentEvents events failure).head?.map fun next_inspection =>
    let response_time : ℚ := ((next_inspection.inspectedAt - failure.inspectedAt : Int) : ℚ) / 3600
    { pk := failure.pk
      stepId := failure.stepId
      failure_date := failure.inspectedAt
      response_time_hours := response_time
      response_time_days := response_time / 24
      next_status := next_inspection.status }

/-- The response-time derivation (first loop of
`calculate_comprehensive_temporal_metrics`). -/
def deriveResponseTimes (events : List InspectionEvent) : List ResponseTimeEvent :=
  (failed_inspections events).filterMap (responseOf events)

/-- `subsequent_passes`: same-`pk` `Pass` events strictly after the failure,
sorted ascending. -/
def subsequentPasses (events : List InspectionEvent) (failure : InspectionEvent) :
    List InspectionEvent :=
  (events.filter
      (fun e => e.pk == failure.pk && failure.inspectedAt < e.inspectedAt &&
        e.status == Status.Pass)).insertionSort eventTimeLe

/-- `intermediate`: same-`pk` events strictly between the failure and the
resolving pass. -/
def intermediateOf (events : List InspectionEvent) (failure next_pass : InspectionEvent) :
    List InspectionEvent :=
  events.filter
    (fun e => e.pk == failure.pk && failure.inspectedAt < e.inspectedAt &&
      e.inspectedAt < next_pass.inspectedAt)

/-- The record appended to `rework_cycles` for one failure, when the
`subsequent_passes` selection is non-empty; `none` otherwise. -/
def cycleOf (events : List InspectionEvent) (failure : InspectionEvent) :
    Option ReworkCycle :=
  (subsequentPasses events failure).head?.map fun next_pass =>
    let rework_time : ℚ := ((next_pass.inspectedAt - failure.inspectedAt : Int) : ℚ) / 3600
    { pk := failure.pk
      stepId := failure.stepId
      failure_date := failure.inspectedAt
      resolution_date := next_pass.inspectedAt
      rework_time_hours := rework_time
      rework_time_days := rework_time / 24
      intermediate_inspections := (intermediateOf events failure next_pass).length
      total_attempts := (intermediateOf events failure next_pass).length + 1 }

/-- The rework-cycle derivation (second loop of
`calculate_comprehensive_temporal_metrics`). -/
def deriveReworkCycles (events : List InspectionEvent) : List ReworkCycle :=
  (failed_inspections events).filterMap (cycleOf events)

/-- Round-half-to-even to the nearest integer (numpy / pandas `round`). -/
def roundHalfEven (q : ℚ) : Int :=
  if q - ⌊q⌋ < 1/2 then ⌊q⌋
  else if 1/2 < q - ⌊q⌋ then ⌊q⌋ + 1
  else if Even ⌊q⌋ then ⌊q⌋ else ⌊q⌋ + 1

/-- `x.round(d)`: round-half-to-even at `d` decimal places. -/
def roundTo (d : Nat) (x : ℚ) : ℚ :=
  (roundHalfEven (x * 10 ^ d) : ℚ) / 10 ^ d

/-- One output row of the `groupby('stepId')` aggregation, for key `s`:
`Total_Inspections = count`, `Passes = count(status==Pass)`,
`Failures = count(status==Fail)`, rates as percentages rounded to 1 decimal. -/
def stepRow (events : List InspectionEvent) (s : Nat) : StepPerformance :=
  let grp := events.filter (fun e => e.stepId == s)
  let total := grp.length
  let passes := (grp.filter (fun e => e.status == Status.Pass)).length
  let failures := (grp.filter (fun e => e.status == Status.Fail)).length
  { stepId := s
    Total_Inspections := total
    Passes := passes
    Failures := failures
    Pass_Rate := roundTo 1 ((passes : ℚ) / (total : ℚ) * 100)
    Failure_Rate := roundTo 1 ((failures : ℚ) / (total : ℚ) * 100) }

/-- `quality_data.groupby('stepId')` with the pass/fail aggregations and the
percentage columns rounded to one decimal place.  Pandas `groupby` emits one
row per distinct key, keys sorted ascending. -/
def computeStepPerformance (events : List InspectionEvent) : List StepPerformance :=
  (((events.map (fun e => e.stepId)).dedup).insertionSort (fun a b => a ≤ b)).map
    (stepRow events)

/-- `true` iff some same-`pk` event lies strictly after `f` in `events`
(the condition under which the first loop emits a record for `f`). -/
def hasSubsequent (events : List InspectionEvent) (f : InspectionEvent) : Bool :=
  events.any (fun e => e.pk == f.pk && f.inspectedAt < e.inspectedAt)

/-- `true` iff some same-`pk` `Pass` event lies strictly after `f` in `events`
(the condition under which the second loop emits a record for `f`). -/
def hasSubsequentPass (events : List InspectionEvent) (f : InspectionEvent) : Bool :=
  events.any
    (fun e => e.pk == f.pk && f.inspectedAt < e.inspectedAt && e.status == Status.Pass)

/-- The three events of the spec's end-to-end example for key `K1`:
Offered@t0, Fail@t1 with t1 = t0 + 2h, Pass@t2 with t2 = t1 + 10h. -/
def exampleK1 : List InspectionEvent :=
  [ { pk := 1, stepId := 1, inspectedAt := 0, status := Status.Offered },
    { pk := 1, stepId := 1, inspectedAt := 7200, status := Status.Fail },
    { pk := 1, stepId := 1, inspectedAt := 43200, status := Status.Pass } ]

/-- A row of `report_task_progress.csv`, restricted to the columns the metric
computations read. -/
structure TaskProgressRecord where
  pk : Nat
  stepId : Nat
  planned_value : ℚ
  earned_value_traditional : ℚ
  earned_value_quality_gated : ℚ
  actual_cost : ℚ
  rework_cost : ℚ
  failure_count : Nat
deriving DecidableEq, Repr

/-- Project parameter `total_budget = 445245.20`. -/
def total_budget : ℚ := 445245.20

/-- `task_progress['earned_value_traditional'].sum()`. -/
def final_ev_traditional (tasks : List TaskProgressRecord) : ℚ :=
  (tasks.map (fun t => t.earned_value_traditional)).sum

/-- `task_progress['earned_value_quality_gated'].sum()`. -/
def final_ev_quality (tasks : List TaskProgressRecord) : ℚ :=
  (tasks.map (fun t => t.earned_value_quality_gated)).sum

/-- `task_progress['actual_cost'].sum()`. -/
def final_ac (tasks : List TaskProgressRecord) : ℚ :=
  (tasks.map (fun t => t.actual_cost)).sum

/-- `task_progress['rework_cost'].sum()`. -/
def total_rework_cost (tasks : List TaskProgressRecord) : ℚ :=
  (tasks.map (fun t => t.rework_cost)).sum

/-- `final_spi_traditional = final_ev_traditional / total_budget`. -/
def final_spi_traditional (tasks : List TaskProgressRecord) (budget : ℚ) : ℚ :=
  final_ev_traditional tasks / budget

/-- `final_spi_quality = final_ev_quality / total_budget`. -/
def final_spi_quality (tasks : List TaskProgressRecord) (budget : ℚ) : ℚ :=
  final_ev_quality tasks / budget

/-- `final_cpi_traditional = final_ev_traditional / final_ac`. -/
def final_cpi_traditional (tasks : List TaskProgressRecord) : ℚ :=
  final_ev_traditional tasks / final_ac tasks

/-- `final_cpi_quality = final_ev_quality / final_ac`. -/
def final_cpi_quality (tasks : List TaskProgressRecord) : ℚ :=
  final_ev_quality tasks / final_ac tasks

/-- `failure_rate = (task_progress['failure_count'].sum() / total_tasks) * 100`
with `total_tasks = len(task_progress)`. -/
def failure_rate (tasks : List TaskProgressRecord) : ℚ :=
  (((tasks.map (fun t => t.failure_count)).sum : ℚ) / (tasks.length : ℚ)) * 100

/-- `first_time_right_rate =
((total_tasks - task_progress['failure_count'].sum()) / total_tasks) * 100`. -/
def first_time_right_rate (tasks : List TaskProgressRecord) : ℚ :=
  (((tasks.length : ℚ) - ((tasks.map (fun t => t.failure_count)).sum : ℚ)) /
    (tasks.length : ℚ)) * 100

/-- `avg_response_time = response_df['response_time_hours'].mean() if not
response_df.empty else 0`. -/
def avg_response_time (rs : List ResponseTimeEvent) : ℚ :=
  if rs.isEmpty then 0
  else (rs.map (fun r => r.response_time_hours)).sum / (rs.length : ℚ)

/-- `avg_rework_time = rework_df['rework_time_days'].mean() if not
rework_df.empty else 0`. -/
def avg_rework_time (cs : List ReworkCycle) : ℚ :=
  if cs.isEmpty then 0
  else (cs.map (fun c => c.rework_time_days)).sum / (cs.length : ℚ)

/-- `total_quality_delay = rework_df['rework_time_hours'].sum() if not
rework_df.empty else 0`. -/
def total_quality_delay (cs : List ReworkCycle) : ℚ :=
  if cs.isEmpty then 0 else (cs.map (fun c => c.rework_time_hours)).sum

/-- `first_time_rework_success = 0 if rework_df.empty else
(rework_df['total_attempts'] == 1).sum() / len(rework_df) * 100`. -/
def first_time_rework_success (cs : List ReworkCycle) : ℚ :=
  if cs.isEmpty then 0
  else (((cs.countP (fun c => c.total_attempts == 1)) : ℚ) / (cs.length : ℚ)) * 100

/-- The scenario names of `update_simulation_comparison`. -/
def scenario_names : List String :=
  ["Current", "Perfect Quality", "Improved Response", "Combined"]

/-- `costs = [final_ac, total_budget, total_budget + (total_rework_cost * 0.25
/ 4.1), total_budget + (total_rework_cost * 0.4)]`. -/
def scenario_costs (fac tb trc : ℚ) : List ℚ :=
  [fac, tb, tb + trc * 0.25 / 4.1, tb + trc * 0.4]

/-- `savings = [0, total_rework_cost, total_rework_cost * (1 - 0.25/4.1),
total_rework_cost * 0.6]`. -/
def scenario_savings (trc : ℚ) : List ℚ :=
  [0, trc, trc * (1 - 0.25/4.1), trc * 0.6]

/-- A one-record task table with two failure incidents on the single task. -/
def exampleTasks : List TaskProgressRecord :=
  [ { pk := 1, stepId := 1, planned_value := 100, earned_value_traditional := 100,
      earned_value_quality_gated := 100, actual_cost := 100, rework_cost := 0,
      failure_count := 2 } ]

/-- A one-record task table summing to the reference values of the spec's
numeric example (`sum(EVquality) = 440000`, `sum(AC) = 450000`). -/
def exampleTasksRef : List TaskProgressRecord :=
  [ { pk := 1, stepId := 1, planned_value := 445245.20,
      earned_value_traditional := 440000, earned_value_quality_gated := 440000,
      actual_cost := 450000, rework_cost := 0, failure_count := 0 } ]

/-- A `Pass` inspection of component 0 at step 1. -/
def bigPassEv : InspectionEvent := ⟨0, 1, 0, Status.Pass⟩

/-- A `Fail` inspection of component 0 at step 1. -/
def bigFailEv : InspectionEvent := ⟨0, 1, 0, Status.Fail⟩

/-- An `Offered` inspection of component 0 at step 1. -/
def bigOfferedEv : InspectionEvent := ⟨0, 1, 0, Status.Offered⟩

/-- A single-step inspection log with 12 passes, 1587 fails and one `Offered`
event: rates 0.75% and 99.1875% round to 0.8 and 99.2, which sum to exactly
100 even though an `Offered` event is present. -/
def exampleBigStep : List InspectionEvent :=
  List.replicate 12 bigPassEv ++ List.replicate 1587 bigFailEv ++ [bigOfferedEv]

lemma deriveResponseTimes_exampleK1 : deriveResponseTimes exampleK1 =
    [ { pk := 1, stepId := 1, failure_date := 7200, response_time_hours := 10,
        response_time_days := 10/24, next_status := Status.Pass } ] := by
  simp +decide [deriveResponseTimes, failed_inspections, subsequentEvents, responseOf,
    exampleK1, eventTimeLe]
  norm_num

lemma deriveReworkCycles_exampleK1 : deriveReworkCycles exampleK1 =
    [ { pk := 1, stepId := 1, failure_date := 7200, resolution_date := 43200,
        rework_time_hours := 10, rework_time_days := 10/24,
        intermediate_inspections := 0, total_attempts := 1 } ] := by
  simp +decide [deriveReworkCycles, failed_inspections, subsequentPasses, cycleOf,
    intermediateOf, exampleK1, eventTimeLe]
  norm_num

lemma insertionSort_eq_nil_iff {α : Type*} {r : α → α → Prop} [DecidableRel r] {l : List α} :
    l.insertionSort r = [] ↔ l = [] := by
  constructor
  · intro h
    have hlen := (List.perm_insertionSort r l).length_eq
    rw [h] at hlen
    exact List.eq_nil_of_length_eq_zero hlen.symm
  · rintro rfl
    rfl

lemma responseOf_isSome (events : List InspectionEvent) (f : InspectionEvent) :
    (responseOf events f).isSome = hasSubsequent events f := by
  rw [Bool.eq_iff_iff]
  simp [responseOf, subsequentEvents, hasSubsequent, insertionSort_eq_nil_iff,
    List.filter_eq_nil_iff]

lemma cycleOf_isSome (events : List InspectionEvent) (f : InspectionEvent) :
    (cycleOf events f).isSome = hasSubsequentPass events f := by
  rw [Bool.eq_iff_iff]
  simp [cycleOf, subsequentPasses, hasSubsequentPass, insertionSort_eq_nil_iff,
    List.filter_eq_nil_iff, and_assoc]

lemma deriveResponseTimes_length (events : List InspectionEvent) :
    (deriveResponseTimes events).length
      = (events.filter (fun e => e.status == Status.Fail && hasSubsequent events e)).length := by
  rw [deriveResponseTimes, List.length_filterMap_eq_countP, failed_inspections,
    (List.perm_insertionSort eventTimeLe _).countP_eq, List.countP_filter,
    ← List.countP_eq_length_filter]
  exact List.countP_congr fun e _ => by simp [responseOf_isSome, Bool.and_comm]

lemma deriveReworkCycles_length (events : List InspectionEvent) :
    (deriveReworkCycles events).length
      = (events.filter
          (fun e => e.status == Status.Fail && hasSubsequentPass events e)).length := by
  rw [deriveReworkCycles, List.length_filterMap_eq_countP, failed_inspections,
    (List.perm_insertionSort eventTimeLe _).countP_eq, List.countP_filter,
    ← List.countP_eq_length_filter]
  exact List.countP_congr fun e _ => by simp [cycleOf_isSome, Bool.and_comm]

lemma responseOf_eq_some {events : List InspectionEvent} {f : InspectionEvent}
    {r : ResponseTimeEvent} (h : responseOf events f = some r) :
    r.pk = f.pk ∧ r.failure_date = f.inspectedAt ∧
    ∃ n ∈ events, n.pk = f.pk ∧ f.inspectedAt < n.inspectedAt ∧
      (∀ m ∈ events, m.pk = f.pk → f.inspectedAt < m.inspectedAt →
        n.inspectedAt ≤ m.inspectedAt) ∧
      r.response_time_hours = ((n.inspectedAt - f.inspectedAt : ℤ) : ℚ) / 3600 ∧
      r.next_status = n.status := by
  rw [responseOf, Option.map_eq_some'] at h
  obtain ⟨n, hn, rfl⟩ := h
  obtain ⟨tl, htl⟩ := List.head?_eq_some_iff.1 hn
  have hnmem : n ∈ subsequentEvents events f := by
    rw [htl]
    exact List.mem_cons_self n tl
  rw [subsequentEvents, List.mem_insertionSort, List.mem_filter] at hnmem
  obtain ⟨hne, hnp⟩ := hnmem
  simp only [Bool.and_eq_true, beq_iff_eq, decide_eq_true_eq] at hnp
  refine ⟨rfl, rfl, n, hne, hnp.1, hnp.2, ?_, rfl, rfl⟩
  intro m hm hmpk hmlt
  have hmmem : m ∈ subsequentEvents events f := by
    rw [subsequentEvents, List.mem_insertionSort, List.mem_filter]
    exact ⟨hm, by simp [hmpk, hmlt]⟩
  have hsorted : (subsequentEvents events f).Sorted eventTimeLe :=
    List.sorted_insertionSort eventTimeLe _
  rw [htl] at hmmem hsorted
  rcases List.mem_cons.1 hmmem with hmn | hmtl
  · rw [hmn]
  · exact List.rel_of_sorted_cons hsorted m hmtl

lemma cycleOf_eq_some {events : List InspectionEvent} {f : InspectionEvent}
    {c : ReworkCycle} (h : cycleOf events f = some c) :
    c.pk = f.pk ∧ c.failure_date = f.inspectedAt ∧
    c.total_attempts = c.intermediate_inspections + 1 ∧
    ∃ p ∈ events, p.pk = f.pk ∧ f.inspectedAt < p.inspectedAt ∧ p.status = Status.Pass ∧
      (∀ m ∈ events, m.pk = f.pk → f.inspectedAt < m.inspectedAt →
        m.status = Status.Pass → p.inspectedAt ≤ m.inspectedAt) ∧
      c.resolution_date = p.inspectedAt ∧
      c.rework_time_hours = ((p.inspectedAt - f.inspectedAt : ℤ) : ℚ) / 3600 := by
  rw [cycleOf, Option.map_eq_some'] at h
  obtain ⟨p, hp, rfl⟩ := h
  obtain ⟨tl, htl⟩ := List.head?_eq_some_iff.1 hp
  have hpmem : p ∈ subsequentPasses events f := by
    rw [htl]
    exact List.mem_cons_self p tl
  rw [subsequentPasses, List.mem_insertionSort, List.mem_filter] at hpmem
  obtain ⟨hpe, hpp⟩ := hpmem
  simp only [Bool.and_eq_true, beq_iff_eq, decide_eq_true_eq] at hpp
  refine ⟨rfl, rfl, rfl, p, hpe, hpp.1.1, hpp.1.2, hpp.2, ?_, rfl, rfl⟩
  intro m hm hmpk hmlt hmpass
  have hmmem : m ∈ subsequentPasses events f := by
    rw [subsequentPasses, List.mem_insertionSort, List.mem_filter]
    exact ⟨hm, by simp [hmpk, hmlt, hmpass]⟩
  have hsorted : (subsequentPasses events f).Sorted eventTimeLe :=
    List.sorted_insertionSort eventTimeLe _
  rw [htl] at hmmem hsorted
  rcases List.mem_cons.1 hmmem with hmp | hmtl
  · rw [hmp]
  · exact List.rel_of_sorted_cons hsorted m hmtl

lemma mem_failed_inspections {events : List InspectionEvent} {f : InspectionEvent}
    (h : f ∈ failed_inspections events) : f ∈ events ∧ f.status = Status.Fail := by
  rw [failed_inspections, List.mem_insertionSort, List.mem_filter] at h
  exact ⟨h.1, by simpa using h.2⟩

/-- C1: `deriveResponseTimes` emits exactly one record per `Fail` event having a
same-`pk` event strictly later; each record carries the exact fractional elapsed
hours to the earliest such subsequent event and that event's status, whatever it
is; on the K1 example (Offered@t0, Fail@t1 = t0+2h, Pass@t2 = t1+10h) the output
is the single record with `response_time_hours = 10` and `next_status = Pass`. -/
theorem deriveResponseTimes_spec :
    (∀ events : List InspectionEvent,
      (deriveResponseTimes events).length
        = (events.filter (fun e => e.status == Status.Fail && hasSubsequent events e)).length
      ∧ ∀ r ∈ deriveResponseTimes events, ∃ f ∈ events, f.status = Status.Fail ∧
          r.pk = f.pk ∧ r.failure_date = f.inspectedAt ∧
          ∃ n ∈ events, n.pk = f.pk ∧ f.inspectedAt < n.inspectedAt ∧
            (∀ m ∈ events, m.pk = f.pk → f.inspectedAt < m.inspectedAt →
              n.inspectedAt ≤ m.inspectedAt) ∧
            r.response_time_hours = ((n.inspectedAt - f.inspectedAt : ℤ) : ℚ) / 3600 ∧
            r.next_status = n.status)
    ∧ deriveResponseTimes exampleK1
        = [ { pk := 1, stepId := 1, failure_date := 7200, response_time_hours := 10,
              response_time_days := 10/24, next_status := Status.Pass } ] := by
  refine ⟨fun events => ⟨deriveResponseTimes_length events, ?_⟩,
    deriveResponseTimes_exampleK1⟩
  intro r hr
  obtain ⟨f, hf, hfr⟩ := List.mem_filterMap.1 hr
  obtain ⟨hfe, hfs⟩ := mem_failed_inspections hf
  obtain ⟨h1, h2, n, hn⟩ := responseOf_eq_some hfr
  exact ⟨f, hfe, hfs, h1, h2, n, hn⟩

/-- C2: the number of response-time records is at most the number of `Fail`
events, with equality exactly when every `Fail` event has some same-`pk` event
strictly later. -/
theorem deriveResponseTimes_card_le_failures :
    ∀ events : List InspectionEvent,
      (deriveResponseTimes events).length
          ≤ (events.filter (fun e => e.status == Status.Fail)).length
      ∧ ((deriveResponseTimes events).length
            = (events.filter (fun e => e.status == Status.Fail)).length
          ↔ ∀ f ∈ events, f.status = Status.Fail → hasSubsequent events f = true) := by
  intro events
  rw [deriveResponseTimes_length]
  refine ⟨?_, ?_, ?_⟩
  · rw [← List.countP_eq_length_filter, ← List.countP_eq_length_filter]
    refine List.countP_mono_left fun e _ h => ?_
    simp only [Bool.and_eq_true] at h
    exact h.1
  · intro hlen f hf hfs
    have hcomm : events.filter (fun e => e.status == Status.Fail && hasSubsequent events e)
        = (events.filter (fun e => e.status == Status.Fail)).filter
            (fun e => hasSubsequent events e) := by
      rw [List.filter_filter]
      exact List.filter_congr fun e _ => by rw [Bool.and_comm]
    rw [hcomm] at hlen
    have heq := (List.filter_sublist
      (events.filter (fun e => e.status == Status.Fail))).eq_of_length hlen
    have hall := List.filter_eq_self.1 heq
    exact hall f (List.mem_filter.2 ⟨hf, by simp [hfs]⟩)
  · intro hall
    refine congrArg List.length (List.filter_congr fun e he => ?_)
    cases hst : (e.status == Status.Fail) with
    | false => simp
    | true => simp [hall e he (by simpa using hst)]

/-- C3: every failure resolved by a subsequent `Pass` in particular has a
subsequent event, so there are at most as many rework cycles as response-time
records. -/
theorem deriveReworkCycles_card_le :
    ∀ events : List InspectionEvent,
      (deriveReworkCycles events).length ≤ (deriveResponseTimes events).length := by
  intro events
  rw [deriveReworkCycles_length, deriveResponseTimes_length,
    ← List.countP_eq_length_filter, ← List.countP_eq_length_filter]
  refine List.countP_mono_left fun e he h => ?_
  simp only [Bool.and_eq_true] at h ⊢
  refine ⟨h.1, ?_⟩
  obtain ⟨x, hx, hxp⟩ := List.any_eq_true.1 h.2
  simp only [Bool.and_eq_true] at hxp
  exact List.any_eq_true.2 ⟨x, hx, by simp [hxp.1.1, hxp.1.2]⟩

/-- C4: every rework cycle has a nonnegative intermediate-inspection count,
`total_attempts = intermediate_inspections + 1`, hence `total_attempts ≥ 1`. -/
theorem reworkCycle_invariants :
    ∀ events : List InspectionEvent, ∀ c ∈ deriveReworkCycles events,
      0 ≤ c.intermediate_inspections ∧
      c.total_attempts = c.intermediate_inspections + 1 ∧
      1 ≤ c.total_attempts := by
  intro events c hc
  obtain ⟨f, hf, hcf⟩ := List.mem_filterMap.1 hc
  obtain ⟨-, -, hta, -⟩ := cycleOf_eq_some hcf
  exact ⟨Nat.zero_le _, hta, by omega⟩

/-- C10: for a `Fail` event yielding both a response-time record and a rework
cycle, the rework time is at least the response time and both are strictly
positive. -/
theorem rework_ge_response :
    ∀ (events : List InspectionEvent) (f : InspectionEvent) (r : ResponseTimeEvent)
      (c : ReworkCycle), f ∈ events → f.status = Status.Fail →
      responseOf events f = some r → cycleOf events f = some c →
      r ∈ deriveResponseTimes events ∧ c ∈ deriveReworkCycles events ∧
      0 < r.response_time_hours ∧ 0 < c.rework_time_hours ∧
      r.response_time_hours ≤ c.rework_time_hours := by
  intro events f r c hf hfs hr hc
  have hffail : f ∈ failed_inspections events := by
    rw [failed_inspections, List.mem_insertionSort, List.mem_filter]
    exact ⟨hf, by simp [hfs]⟩
  obtain ⟨-, -, n, hne, hnpk, hnlt, hnmin, hrh, -⟩ := responseOf_eq_some hr
  obtain ⟨-, -, -, p, hpe, hppk, hplt, -, -, -, hch⟩ := cycleOf_eq_some hc
  have hnp : n.inspectedAt ≤ p.inspectedAt := hnmin p hpe hppk hplt
  refine ⟨List.mem_filterMap.2 ⟨f, hffail, hr⟩, List.mem_filterMap.2 ⟨f, hffail, hc⟩,
    ?_, ?_, ?_⟩
  · rw [hrh]
    refine div_pos ?_ (by norm_num)
    exact_mod_cast Int.sub_pos.2 hnlt
  · rw [hch]
    refine div_pos ?_ (by norm_num)
    exact_mod_cast Int.sub_pos.2 hplt
  · rw [hrh, hch]
    refine div_le_div_of_nonneg_right ?_ (by norm_num) |>.trans_eq rfl
    exact_mod_cast sub_le_sub_right hnp f.inspectedAt

/-- Witness for C10 at the K1 example. -/
theorem rework_ge_response_witness :
    responseOf exampleK1 { pk := 1, stepId := 1, inspectedAt := 7200, status := Status.Fail }
        = some { pk := 1, stepId := 1, failure_date := 7200, response_time_hours := 10,
                 response_time_days := 10/24, next_status := Status.Pass } ∧
    cycleOf exampleK1 { pk := 1, stepId := 1, inspectedAt := 7200, status := Status.Fail }
        = some { pk := 1, stepId := 1, failure_date := 7200, resolution_date := 43200,
                 rework_time_hours := 10, rework_time_days := 10/24,
                 intermediate_inspections := 0, total_attempts := 1 } ∧
    ({ pk := 1, stepId := 1, failure_date := 7200, response_time_hours := 10,
       response_time_days := 10/24, next_status := Status.Pass } : ResponseTimeEvent)
        ∈ deriveResponseTimes exampleK1 ∧
    ({ pk := 1, stepId := 1, failure_date := 7200, resolution_date := 43200,
       rework_time_hours := 10, rework_time_days := 10/24,
       intermediate_inspections := 0, total_attempts := 1 } : ReworkCycle)
        ∈ deriveReworkCycles exampleK1 ∧
    (0 : ℚ) < 10 ∧ (0 : ℚ) < 10 ∧ (10 : ℚ) ≤ 10 := by
  have h1 : responseOf exampleK1
      { pk := 1, stepId := 1, inspectedAt := 7200, status := Status.Fail }
      = some { pk := 1, stepId := 1, failure_date := 7200, response_time_hours := 10,
               response_time_days := 10/24, next_status := Status.Pass } := by
    simp +decide [responseOf, subsequentEvents, exampleK1, eventTimeLe]
    norm_num
  have h2 : cycleOf exampleK1
      { pk := 1, stepId := 1, inspectedAt := 7200, status := Status.Fail }
      = some { pk := 1, stepId := 1, failure_date := 7200, resolution_date := 43200,
               rework_time_hours := 10, rework_time_days := 10/24,
               intermediate_inspections := 0, total_attempts := 1 } := by
    simp +decide [cycleOf, subsequentPasses, intermediateOf, exampleK1, eventTimeLe]
    norm_num
  have hmain := rework_ge_response exampleK1
    { pk := 1, stepId := 1, inspectedAt := 7200, status := Status.Fail } _ _
    (by simp [exampleK1]) rfl h1 h2
  exact ⟨h1, h2, hmain.1, hmain.2.1, hmain.2.2.1, hmain.2.2.2.1, hmain.2.2.2.2⟩

lemma rate_sum_eq_100 {tasks : List TaskProgressRecord} (h : tasks ≠ []) :
    failure_rate tasks + first_time_right_rate tasks = 100 := by
  have h0 : tasks.length ≠ 0 := fun hh => h (List.length_eq_zero.1 hh)
  have hlen : (tasks.length : ℚ) ≠ 0 := Nat.cast_ne_zero.2 h0
  rw [failure_rate, first_time_right_rate]
  field_simp
  ring

/-- C6 counterexample: no task table (in particular none containing a task with
`failure_count > 1`) makes the two rates sum to anything other than 100 — the
two formulas are algebraically complementary. -/
theorem failure_rate_sum_no_input_ne_100 :
    ¬ ∃ tasks : List TaskProgressRecord, (∃ t ∈ tasks, 1 < t.failure_count) ∧
        failure_rate tasks + first_time_right_rate tasks ≠ 100 := by
  rintro ⟨tasks, ⟨t, ht, -⟩, hne⟩
  exact hne (rate_sum_eq_100 (List.ne_nil_of_mem ht))

/-- C6 amended: as computed, `failure_rate + first_time_right_rate = 100` for
every non-empty task table, even when some task has `failure_count > 1`. -/
theorem failure_rate_add_first_time_right_rate :
    ∀ tasks : List TaskProgressRecord, tasks ≠ [] →
      failure_rate tasks + first_time_right_rate tasks = 100 :=
  fun _ h => rate_sum_eq_100 h

/-- Witness for the amended C6 at a table whose single task has
`failure_count = 2`. -/
theorem failure_rate_add_first_time_right_rate_witness :
    exampleTasks ≠ [] ∧
    failure_rate exampleTasks + first_time_right_rate exampleTasks = 100 :=
  ⟨by simp [exampleTasks],
    failure_rate_add_first_time_right_rate exampleTasks (by simp [exampleTasks])⟩

lemma roundHalfEven_of_floor_lt_half {q : ℚ} {z : ℤ} (hz : ⌊q⌋ = z)
    (h : q - z < 1/2) : roundHalfEven q = z := by
  rw [roundHalfEven, hz, if_pos h]

lemma roundHalfEven_of_half_lt {q : ℚ} {z : ℤ} (hz : ⌊q⌋ = z)
    (h : 1/2 < q - z) : roundHalfEven q = z + 1 := by
  rw [roundHalfEven, hz, if_neg (by linarith), if_pos h]

/-- C7: the final quality indices are the stated quotients, and at the
reference sums (`EVquality = 440000`, `AC = 450000`, budget `445245.20`) they
round to `0.9882` and `0.9778` at 4 decimal places. -/
theorem spi_cpi_at_reference :
    ∀ tasks : List TaskProgressRecord,
      final_ev_quality tasks = 440000 → final_ac tasks = 450000 →
      final_spi_quality tasks total_budget = final_ev_quality tasks / total_budget ∧
      final_cpi_quality tasks = final_ev_quality tasks / final_ac tasks ∧
      roundTo 4 (final_spi_quality tasks total_budget) = 0.9882 ∧
      roundTo 4 (final_cpi_quality tasks) = 0.9778 := by
  intro tasks h1 h2
  refine ⟨rfl, rfl, ?_, ?_⟩
  · rw [final_spi_quality, h1, total_budget, roundTo]
    have hf : ⌊((440000 : ℚ) / 445245.20) * 10 ^ 4⌋ = 9882 := by
      rw [Int.floor_eq_iff]
      norm_num
    rw [roundHalfEven_of_floor_lt_half hf (by norm_num)]
    norm_num
  · rw [final_cpi_quality, h1, h2, roundTo]
    have hf : ⌊((440000 : ℚ) / 450000) * 10 ^ 4⌋ = 9777 := by
      rw [Int.floor_eq_iff]
      norm_num
    rw [roundHalfEven_of_half_lt hf (by norm_num)]
    norm_num

/-- Witness for C7 at a one-task table realising the reference sums. -/
theorem spi_cpi_at_reference_witness :
    final_ev_quality exampleTasksRef = 440000 ∧ final_ac exampleTasksRef = 450000 ∧
    (final_spi_quality exampleTasksRef total_budget
        = final_ev_quality exampleTasksRef / total_budget ∧
      final_cpi_quality exampleTasksRef
        = final_ev_quality exampleTasksRef / final_ac exampleTasksRef ∧
      roundTo 4 (final_spi_quality exampleTasksRef total_budget) = 0.9882 ∧
      roundTo 4 (final_cpi_quality exampleTasksRef) = 0.9778) := by
  have h1 : final_ev_quality exampleTasksRef = 440000 := by
    simp [final_ev_quality, exampleTasksRef]
  have h2 : final_ac exampleTasksRef = 450000 := by
    simp [final_ac, exampleTasksRef]
  exact ⟨h1, h2, spi_cpi_at_reference exampleTasksRef h1 h2⟩

/-- C8: the scenario table is the fixed ordered four-scenario list in which
`Current` saves exactly 0, `Perfect Quality` costs exactly the budget and saves
the whole rework cost, and `Combined` saves exactly `0.6 *` rework cost. -/
theorem buildScenarios_spec :
    ∀ tb trc fac : ℚ,
      scenario_names = ["Current", "Perfect Quality", "Improved Response", "Combined"] ∧
      (scenario_costs fac tb trc).length = 4 ∧
      (scenario_savings trc).length = 4 ∧
      (scenario_savings trc).get ⟨0, by simp [scenario_savings]⟩ = 0 ∧
      (scenario_costs fac tb trc).get ⟨1, by simp [scenario_costs]⟩ = tb ∧
      (scenario_savings trc).get ⟨1, by simp [scenario_savings]⟩ = trc ∧
      (scenario_savings trc).get ⟨3, by simp [scenario_savings]⟩ = 0.6 * trc := by
  intro tb trc fac
  refine ⟨rfl, rfl, rfl, rfl, rfl, rfl, ?_⟩
  show trc * 0.6 = 0.6 * trc
  ring

/-- C9: when the derived collections are empty, the downstream aggregates all
default to 0 (total functions; no division-by-zero error can arise). -/
theorem empty_aggregates_default_zero :
    ∀ events : List InspectionEvent,
      (deriveResponseTimes events = [] →
        avg_response_time (deriveResponseTimes events) = 0) ∧
      (deriveReworkCycles events = [] →
        avg_rework_time (deriveReworkCycles events) = 0 ∧
        total_quality_delay (deriveReworkCycles events) = 0 ∧
        first_time_rework_success (deriveReworkCycles events) = 0) := by
  intro events
  constructor
  · intro h
    rw [h]
    rfl
  · intro h
    rw [h]
    exact ⟨rfl, rfl, rfl⟩

/-- Witness for C9 at the empty event log. -/
theorem empty_aggregates_default_zero_witness :
    deriveResponseTimes ([] : List InspectionEvent) = [] ∧
    deriveReworkCycles ([] : List InspectionEvent) = [] ∧
    avg_response_time (deriveResponseTimes ([] : List InspectionEvent)) = 0 ∧
    avg_rework_time (deriveReworkCycles ([] : List InspectionEvent)) = 0 ∧
    total_quality_delay (deriveReworkCycles ([] : List InspectionEvent)) = 0 ∧
    first_time_rework_success (deriveReworkCycles ([] : List InspectionEvent)) = 0 := by
  have h := empty_aggregates_default_zero []
  exact ⟨rfl, rfl, h.1 rfl, (h.2 rfl).1, (h.2 rfl).2.1, (h.2 rfl).2.2⟩

/-- Witness for C4 at the K1 example's single rework cycle. -/
theorem reworkCycle_invariants_witness :
    ({ pk := 1, stepId := 1, failure_date := 7200, resolution_date := 43200,
       rework_time_hours := 10, rework_time_days := 10/24,
       intermediate_inspections := 0, total_attempts := 1 } : ReworkCycle)
        ∈ deriveReworkCycles exampleK1 ∧
    (0 ≤ (0 : Nat) ∧ (1 : Nat) = 0 + 1 ∧ (1 : Nat) ≤ 1) := by
  have hmem : ({ pk := 1, stepId := 1, failure_date := 7200, resolution_date := 43200,
                 rework_time_hours := 10, rework_time_days := 10/24,
                 intermediate_inspections := 0, total_attempts := 1 } : ReworkCycle)
      ∈ deriveReworkCycles exampleK1 := by
    rw [deriveReworkCycles_exampleK1]
    exact List.mem_singleton.2 rfl
  exact ⟨hmem, reworkCycle_invariants exampleK1 _ hmem⟩

lemma roundHalfEven_tie_even {q : ℚ} {z : ℤ} (hz : ⌊q⌋ = z) (h : q - z = 1/2)
    (he : Even z) : roundHalfEven q = z := by
  rw [roundHalfEven, hz, h]
  rw [if_neg (by norm_num), if_neg (by norm_num), if_pos he]

lemma roundHalfEven_tie_odd {q : ℚ} {z : ℤ} (hz : ⌊q⌋ = z) (h : q - z = 1/2)
    (ho : ¬Even z) : roundHalfEven q = z + 1 := by
  rw [roundHalfEven, hz, h]
  rw [if_neg (by norm_num), if_neg (by norm_num), if_neg ho]

lemma roundHalfEven_le (q : ℚ) : (roundHalfEven q : ℚ) ≤ q + 1/2 := by
  have h1 : ((⌊q⌋ : ℤ) : ℚ) ≤ q := Int.floor_le q
  rw [roundHalfEven]
  split_ifs with ha hb hc
  · linarith
  · push_cast
    linarith
  · linarith
  · have ha' := not_lt.1 ha
    push_cast
    linarith

lemma roundHalfEven_add_roundHalfEven {q r : ℚ} {n : ℤ} (h : q + r = (n : ℚ))
    (hn : Even n) : roundHalfEven q + roundHalfEven r = n := by
  have hfl : ((⌊q⌋ : ℤ) : ℚ) ≤ q := Int.floor_le q
  have hfu : q < ⌊q⌋ + 1 := Int.lt_floor_add_one q
  by_cases hq0 : q = ((⌊q⌋ : ℤ) : ℚ)
  · have hfr : ⌊r⌋ = n - ⌊q⌋ := by
      rw [show r = ((n - ⌊q⌋ : ℤ) : ℚ) by push_cast; linarith, Int.floor_intCast]
    have h1 : roundHalfEven q = ⌊q⌋ :=
      roundHalfEven_of_floor_lt_half rfl (by rw [← hq0]; norm_num [sub_self])
    have h2 : roundHalfEven r = n - ⌊q⌋ :=
      roundHalfEven_of_floor_lt_half hfr (by push_cast; linarith)
    rw [h1, h2]
    omega
  · have hq1 : ((⌊q⌋ : ℤ) : ℚ) < q := lt_of_le_of_ne hfl (Ne.symm hq0)
    have hfr : ⌊r⌋ = n - ⌊q⌋ - 1 := by
      rw [Int.floor_eq_iff]
      constructor
      · push_cast
        linarith
      · push_cast
        linarith
    rcases lt_trichotomy (q - ((⌊q⌋ : ℤ) : ℚ)) (1/2) with hlt | htie | hgt
    · have h1 : roundHalfEven q = ⌊q⌋ := roundHalfEven_of_floor_lt_half rfl hlt
      have h2 : roundHalfEven r = (n - ⌊q⌋ - 1) + 1 :=
        roundHalfEven_of_half_lt hfr (by push_cast; linarith)
      rw [h1, h2]
      omega
    · obtain ⟨k, hk⟩ := hn
      rcases Int.even_or_odd ⌊q⌋ with he | ho
      · have h1 : roundHalfEven q = ⌊q⌋ := roundHalfEven_tie_even rfl htie he
        have h2 : roundHalfEven r = (n - ⌊q⌋ - 1) + 1 := by
          refine roundHalfEven_tie_odd hfr (by push_cast; linarith) ?_
          obtain ⟨m, hm⟩ := he
          rintro ⟨j, hj⟩
          omega
        rw [h1, h2]
        omega
      · have h1 : roundHalfEven q = ⌊q⌋ + 1 :=
          roundHalfEven_tie_odd rfl htie (by simpa using Int.not_even_iff_odd.2 ho)
        have h2 : roundHalfEven r = n - ⌊q⌋ - 1 := by
          refine roundHalfEven_tie_even hfr (by push_cast; linarith) ?_
          obtain ⟨m, hm⟩ := ho
          exact ⟨k - m - 1, by omega⟩
        rw [h1, h2]
        omega
    · have h1 : roundHalfEven q = ⌊q⌋ + 1 := roundHalfEven_of_half_lt rfl hgt
      have h2 : roundHalfEven r = n - ⌊q⌋ - 1 :=
        roundHalfEven_of_floor_lt_half hfr (by push_cast; linarith)
      rw [h1, h2]
      omega

lemma dedup_replicate_succ {α : Type*} [DecidableEq α] (n : Nat) (a : α) :
    (List.replicate (n + 1) a).dedup = [a] := by
  induction n with
  | zero => simp
  | succ k ih =>
    rw [List.replicate_succ, List.dedup_cons_of_mem (by simp [List.mem_replicate]), ih]

lemma countP_pass_add_fail_le (l : List InspectionEvent) :
    (l.filter (fun e => e.status == Status.Pass)).length +
      (l.filter (fun e => e.status == Status.Fail)).length ≤ l.length := by
  rw [← List.countP_eq_length_filter, ← List.countP_eq_length_filter,
    List.length_eq_countP_add_countP (fun e => e.status == Status.Pass)]
  refine Nat.add_le_add_left (List.countP_mono_left fun e _ hf => ?_) _
  simp only [beq_iff_eq] at hf
  simp [hf]

lemma countP_pass_add_fail_eq (l : List InspectionEvent)
    (hno : ∀ e ∈ l, e.status ≠ Status.Offered) :
    (l.filter (fun e => e.status == Status.Pass)).length +
      (l.filter (fun e => e.status == Status.Fail)).length = l.length := by
  rw [← List.countP_eq_length_filter, ← List.countP_eq_length_filter,
    List.length_eq_countP_add_countP (fun e => e.status == Status.Pass)]
  congr 1
  refine List.countP_congr fun e he => ?_
  have hne := hno e he
  cases hst : e.status <;> simp_all

lemma rate_sum_le_100 {P F T : Nat} (hT : 0 < T) (hPF : P + F ≤ T) :
    roundTo 1 ((P : ℚ) / (T : ℚ) * 100) + roundTo 1 ((F : ℚ) / (T : ℚ) * 100) ≤ 100 ∧
    (P + F = T →
      roundTo 1 ((P : ℚ) / (T : ℚ) * 100) + roundTo 1 ((F : ℚ) / (T : ℚ) * 100) = 100) := by
  have hTpos : (0 : ℚ) < T := by exact_mod_cast hT
  have hform : (P : ℚ) / T * 100 * 10 ^ 1 + (F : ℚ) / T * 100 * 10 ^ 1
      = ((P : ℚ) + (F : ℚ)) / T * 1000 := by
    ring
  have heqcase : P + F = T →
      roundTo 1 ((P : ℚ) / (T : ℚ) * 100) + roundTo 1 ((F : ℚ) / (T : ℚ) * 100) = 100 := by
    intro hEq
    have hc : (P : ℚ) + F = T := by exact_mod_cast hEq
    have hsum : (P : ℚ) / T * 100 * 10 ^ 1 + (F : ℚ) / T * 100 * 10 ^ 1
        = ((1000 : ℤ) : ℚ) := by
      rw [hform, hc, div_self hTpos.ne']
      norm_num
    have hre := roundHalfEven_add_roundHalfEven hsum ⟨500, by norm_num⟩
    rw [roundTo, roundTo, div_add_div_same, ← Int.cast_add, hre]
    norm_num
  refine ⟨?_, heqcase⟩
  rcases eq_or_lt_of_le hPF with hEq | hLt
  · exact le_of_eq (heqcase hEq)
  · have hc : (P : ℚ) + F < T := by exact_mod_cast hLt
    have hlt : (P : ℚ) / T * 100 * 10 ^ 1 + (F : ℚ) / T * 100 * 10 ^ 1 < 1000 := by
      rw [hform, div_mul_eq_mul_div, div_lt_iff₀ hTpos]
      linarith
    have h1 := roundHalfEven_le ((P : ℚ) / T * 100 * 10 ^ 1)
    have h2 := roundHalfEven_le ((F : ℚ) / T * 100 * 10 ^ 1)
    have hzq : ((roundHalfEven ((P : ℚ) / T * 100 * 10 ^ 1)
        + roundHalfEven ((F : ℚ) / T * 100 * 10 ^ 1) : ℤ) : ℚ) < 1001 := by
      push_cast
      linarith
    have hz : roundHalfEven ((P : ℚ) / T * 100 * 10 ^ 1)
        + roundHalfEven ((F : ℚ) / T * 100 * 10 ^ 1) ≤ 1000 := by
      have hzz : roundHalfEven ((P : ℚ) / T * 100 * 10 ^ 1)
          + roundHalfEven ((F : ℚ) / T * 100 * 10 ^ 1) < 1001 := by
        exact_mod_cast hzq
      omega
    rw [roundTo, roundTo, div_add_div_same, ← Int.cast_add, div_le_iff₀ (by norm_num)]
    have hcast : ((roundHalfEven ((P : ℚ) / T * 100 * 10 ^ 1)
        + roundHalfEven ((F : ℚ) / T * 100 * 10 ^ 1) : ℤ) : ℚ) ≤ 1000 := by
      exact_mod_cast hz
    norm_num at hcast ⊢
    linarith

lemma stepRow_bounds {events : List InspectionEvent} {s : Nat}
    (hne : ∃ e ∈ events, e.stepId = s) :
    (stepRow events s).Passes + (stepRow events s).Failures
        ≤ (stepRow events s).Total_Inspections ∧
    (stepRow events s).Pass_Rate + (stepRow events s).Failure_Rate ≤ 100 ∧
    ((∀ e ∈ events, e.stepId = s → e.status ≠ Status.Offered) →
      (stepRow events s).Pass_Rate + (stepRow events s).Failure_Rate = 100) := by
  obtain ⟨e0, he0, he0s⟩ := hne
  have he0grp : e0 ∈ events.filter (fun e => e.stepId == s) :=
    List.mem_filter.2 ⟨he0, by simp [he0s]⟩
  have hT : 0 < (events.filter (fun e => e.stepId == s)).length :=
    List.length_pos_of_mem he0grp
  have hPF := countP_pass_add_fail_le (events.filter (fun e => e.stepId == s))
  have hbound := rate_sum_le_100 hT hPF
  refine ⟨hPF, hbound.1, fun hno => ?_⟩
  refine hbound.2 (countP_pass_add_fail_eq _ fun e he => ?_)
  rw [List.mem_filter] at he
  exact hno e he.1 (by simpa using he.2)

/-- C5 (amended): for every step-performance row, `Passes + Failures` is at
most the total, the rounded rate sum is at most 100, and it equals 100
whenever the step has no `Offered` events.  (The converse of the equality
direction fails; see the counterexample.) -/
theorem stepPerformance_rate_bounds :
    ∀ events : List InspectionEvent, ∀ row ∈ computeStepPerformance events,
      row.Passes + row.Failures ≤ row.Total_Inspections ∧
      row.Pass_Rate + row.Failure_Rate ≤ 100 ∧
      ((∀ e ∈ events, e.stepId = row.stepId → e.status ≠ Status.Offered) →
        row.Pass_Rate + row.Failure_Rate = 100) := by
  intro events row hrow
  rw [computeStepPerformance] at hrow
  obtain ⟨s, hs, rfl⟩ := List.mem_map.1 hrow
  rw [List.mem_insertionSort, List.mem_dedup, List.mem_map] at hs
  obtain ⟨e0, he0, he0s⟩ := hs
  have h := stepRow_bounds ⟨e0, he0, he0s⟩
  exact ⟨h.1, h.2.1, fun hno => h.2.2 fun e he hes => hno e he hes⟩

/-- C5 counterexample: in `exampleBigStep` (12 Pass, 1587 Fail, 1 Offered, one
step) the rounded rates are 0.8 and 99.2, summing to exactly 100 although the
step has an `Offered` event — so equality does not imply the absence of
`Offered` events. -/
theorem stepPerformance_rate_sum_counterexample :
    ∃ row ∈ computeStepPerformance exampleBigStep,
      row.Pass_Rate + row.Failure_Rate = 100 ∧
      ∃ e ∈ exampleBigStep, e.stepId = row.stepId ∧ e.status = Status.Offered := by
  have hkeys : ((exampleBigStep.map (fun e => e.stepId)).dedup).insertionSort
      (fun a b => a ≤ b) = [1] := by
    have hmap : exampleBigStep.map (fun e => e.stepId) = List.replicate 1600 1 := by
      simp only [exampleBigStep, List.map_append, List.map_replicate, List.map_cons,
        List.map_nil, bigPassEv, bigFailEv, bigOfferedEv]
      rw [show ([1] : List Nat) = List.replicate 1 1 from rfl, ← List.replicate_add,
        ← List.replicate_add]
    rw [hmap, show (1600 : Nat) = 1599 + 1 from rfl, dedup_replicate_succ]
    rfl
  have hgrp : exampleBigStep.filter (fun e => e.stepId == 1) = exampleBigStep := by
    rw [exampleBigStep, List.filter_append, List.filter_append,
      List.filter_replicate_of_pos (by decide), List.filter_replicate_of_pos (by decide),
      List.filter_cons_of_pos (by decide), List.filter_nil]
  have hpass : exampleBigStep.filter (fun e => e.status == Status.Pass)
      = List.replicate 12 bigPassEv := by
    rw [exampleBigStep, List.filter_append, List.filter_append,
      List.filter_replicate_of_pos (by decide), List.filter_replicate_of_neg (by decide),
      List.filter_cons_of_neg (by decide), List.filter_nil]
    simp
  have hfail : exampleBigStep.filter (fun e => e.status == Status.Fail)
      = List.replicate 1587 bigFailEv := by
    rw [exampleBigStep, List.filter_append, List.filter_append,
      List.filter_replicate_of_neg (by decide), List.filter_replicate_of_pos (by decide),
      List.filter_cons_of_neg (by decide), List.filter_nil]
    simp only [List.nil_append, List.append_nil]
  have hTlen : exampleBigStep.length = 1600 := by
    rw [exampleBigStep, List.length_append, List.length_append, List.length_replicate,
      List.length_replicate, List.length_singleton]
  refine ⟨stepRow exampleBigStep 1, ?_, ?_, bigOfferedEv, ?_, rfl, rfl⟩
  · rw [computeStepPerformance, hkeys]
    simp only [List.map_cons, List.map_nil]
    exact List.mem_singleton.2 rfl
  · show roundTo 1
        ((((exampleBigStep.filter (fun e => e.stepId == 1)).filter
            (fun e => e.status == Status.Pass)).length : ℚ)
          / ((exampleBigStep.filter (fun e => e.stepId == 1)).length : ℚ) * 100)
      + roundTo 1
        ((((exampleBigStep.filter (fun e => e.stepId == 1)).filter
            (fun e => e.status == Status.Fail)).length : ℚ)
          / ((exampleBigStep.filter (fun e => e.stepId == 1)).length : ℚ) * 100) = 100
    rw [hgrp, hpass, hfail, hTlen, List.length_replicate, List.length_replicate]
    push_cast
    have hf1 : ⌊((12 : ℚ) / 1600 * 100 * 10 ^ 1)⌋ = 7 := by
      rw [Int.floor_eq_iff]
      norm_num
    have h1 : roundHalfEven ((12 : ℚ) / 1600 * 100 * 10 ^ 1) = 8 := by
      have h := roundHalfEven_tie_odd hf1 (by norm_num) (by decide)
      simpa using h
    have hf2 : ⌊((1587 : ℚ) / 1600 * 100 * 10 ^ 1)⌋ = 991 := by
      rw [Int.floor_eq_iff]
      norm_num
    have h2 : roundHalfEven ((1587 : ℚ) / 1600 * 100 * 10 ^ 1) = 992 := by
      have h := roundHalfEven_of_half_lt hf2 (by norm_num)
      simpa using h
    rw [roundTo, roundTo, h1, h2]
    norm_num
  · have hx : bigOfferedEv ∈ [bigOfferedEv] := List.mem_singleton.2 rfl
    rw [exampleBigStep]
    exact List.mem_append_right _ hx

/-- Witness for the amended C5 at the K1 example's single step row. -/
theorem stepPerformance_rate_bounds_witness :
    stepRow exampleK1 1 ∈ computeStepPerformance exampleK1 ∧
    ((stepRow exampleK1 1).Passes + (stepRow exampleK1 1).Failures
        ≤ (stepRow exampleK1 1).Total_Inspections ∧
      (stepRow exampleK1 1).Pass_Rate + (stepRow exampleK1 1).Failure_Rate ≤ 100 ∧
      ((∀ e ∈ exampleK1, e.stepId = (stepRow exampleK1 1).stepId →
          e.status ≠ Status.Offered) →
        (stepRow exampleK1 1).Pass_Rate + (stepRow exampleK1 1).Failure_Rate = 100)) := by
  have hkeys : ((exampleK1.map (fun e => e.stepId)).dedup).insertionSort
      (fun a b => a ≤ b) = [1] := by decide
  have hmem : stepRow exampleK1 1 ∈ computeStepPerformance exampleK1 := by
    rw [computeStepPerformance, hkeys]
    simp
  exact ⟨hmem, stepPerformance_rate_bounds exampleK1 (stepRow exampleK1 1) hmem⟩
